import Mathlib

/-!
# Verification of the `decorator-dependency-injection` Container

A shallow embedding of the dependency-injection registry found in
`src/Container.js` and its decorator entry points in `index.js`, together
with proofs of the specified properties.

Modelling conventions:
* JavaScript objects created by `new` carry an allocation identity; we model
  this with an explicit allocation counter threaded through the operations.
  Reference equality (`===`) becomes equality of `Obj` / `Value` terms, which
  include the allocation id.
* A JavaScript class is a `Clazz`: an identity (`cid`, standing for the
  function object's identity), a `name`, a flag recording whether it is
  invokable as a constructor (`typeof c === 'function' && c.prototype`),
  a table of parameter lists on which its constructor throws (and what it
  throws), and a member table describing the behaviour of the members its
  instances expose.
* Thrown errors become `Except` errors; `JSError.rangeError` stands for a
  `RangeError` (the runtime's recursion-limit signal), every other
  constructor for a non-`RangeError` error value.
* The container's `Map` becomes an insertion-ordered association list; the
  in-place mutation of a looked-up record (JavaScript aliasing) becomes an
  explicit write-back with `updateCtx`.
-/

namespace DDI

/-- An error value thrown by JavaScript code. `rangeError` models a
`RangeError` (the recursion-limit signal caught by `getInstance`); `error`
models an ordinary `Error` with its message; `other` models any other thrown
value. -/
inductive JSError where
  | rangeError (msg : String)
  | error (msg : String)
  | other (tag : Nat)
deriving DecidableEq, Repr

/-- The registration kind: `'singleton'` or `'factory'` in `Container.js`. -/
inductive RegType where
  | singleton
  | factory
deriving DecidableEq, Repr

/-- A JavaScript class (constructor function).

`cid` is the identity of the function object; two distinct class declarations
have distinct `cid`s even when their `name`s coincide.
`isConstructor` records `typeof c === 'function' && c.prototype`.
`ctorThrows` lists the parameter lists on which `new c(...)` throws, with the
thrown error; on any other parameter list construction succeeds.
`members` maps a member name to an abstract behaviour id; it describes the
members (own and inherited) that instances of the class expose. -/
structure Clazz where
  cid : Nat
  name : String
  isConstructor : Bool
  ctorThrows : List (List Nat × JSError)
  members : List (String × Nat)
deriving DecidableEq, Repr

/-- Outcome of `new c(...params)`: `none` on success, `some e` when the
constructor throws `e`. -/
def ctorOutcome (c : Clazz) (params : List Nat) : Option JSError :=
  c.ctorThrows.lookup params

/-- A registration key: the `Map` in `Container.js` is keyed either by the
class function itself or by a string name; the two keyspaces never collide.
For a class key we keep the identity and the class name (the name is needed
for error messages; it is determined by the identity). -/
inductive RegKey where
  | cls (cid : Nat) (name : String)
  | str (s : String)
deriving DecidableEq, Repr

/-- The key under which a class is registered: the explicit name when given,
else the class itself (`name ?? clazz` in `#register`). -/
def registrationKey (c : Clazz) (name : Option String) : RegKey :=
  match name with
  | some n => RegKey.str n
  | none => RegKey.cls c.cid c.name

/-- Display form of a key, as used in error messages
(`typeof k === 'string' ? k : k.name`). -/
def keyDisplay (k : RegKey) : String :=
  match k with
  | RegKey.cls _ n => n
  | RegKey.str s => s

/-- A constructed JavaScript object: its allocation identity, the class it
was constructed from, and the constructor parameters it received. -/
structure Obj where
  aid : Nat
  clazz : Clazz
  params : List Nat
deriving DecidableEq, Repr

/-- A value returned by resolution: either a plain instance, or the
delegating proxy view produced by `createProxy(mockInstance, originalInstance)`
wrapping an active object and a fallback object. -/
inductive Value where
  | obj (o : Obj)
  | proxyView (active fallback : Obj)
deriving DecidableEq, Repr

/-- The allocation identities embedded in a value. -/
def Value.aids : Value → List Nat
  | Value.obj o => [o.aid]
  | Value.proxyView a f => [a.aid, f.aid]

/-- `true` when every allocation id in `v` is below `n` (i.e. `v` was
allocated before the counter reached `n`). -/
def Value.freshBelow (v : Value) (n : Nat) : Bool :=
  v.aids.all fun a => decide (a < n)

/-- The `InstanceContext` record of `Container.js`:
`type`, `clazz` (the currently active constructor), `originalClazz` (set only
while a mock is active), `instance_` (the cached singleton instance; the
source field is called `instance`, a Lean keyword), and `proxy`.
An absent JavaScript field is `none` / `false`. -/
structure InstanceContext where
  type : RegType
  clazz : Clazz
  originalClazz : Option Clazz := none
  instance_ : Option Value := none
  proxy : Bool := false
deriving DecidableEq, Repr

/-- `true` when the record's cached instance, if any, was allocated below
`n`; this is the heap invariant relating a record to the allocation
counter. -/
def ctxFresh (ctx : InstanceContext) (n : Nat) : Bool :=
  match ctx.instance_ with
  | some w => w.freshBelow n
  | none => true

/-- The container state: the insertion-ordered `#instances` map. -/
structure Container where
  instances : List (RegKey × InstanceContext)
deriving DecidableEq, Repr

/-- `Map.get` on the association list. -/
def findCtx : List (RegKey × InstanceContext) → RegKey → Option InstanceContext
  | [], _ => none
  | (k, c) :: rest, key => if k = key then some c else findCtx rest key

/-- Write an updated record back under its key, modelling JavaScript's
in-place mutation of the record aliased by the map. -/
def updateCtx : List (RegKey × InstanceContext) → RegKey → InstanceContext →
    List (RegKey × InstanceContext)
  | [], _, _ => []
  | (k, c) :: rest, key, ctx =>
    if k = key then (k, ctx) :: rest else (k, c) :: updateCtx rest key ctx

/-- The duplicate-registration error thrown by `#register`. -/
def duplicateMsg : JSError :=
  JSError.error ("A different class is already registered under this name. " ++
    "This may be a circular dependency. Try using @InjectLazy")

/-- `#register`: insert a fresh record under `name ?? clazz`, rejecting a key
that already has a record. -/
def Container.register (cont : Container) (clazz : Clazz) (type : RegType)
    (name : Option String) : Except JSError Container :=
  let key := registrationKey clazz name
  match findCtx cont.instances key with
  | some _ => Except.error duplicateMsg
  | none =>
    Except.ok ⟨cont.instances ++ [(key, { type := type, clazz := clazz })]⟩

/-- `registerSingleton`. -/
def Container.registerSingleton (cont : Container) (clazz : Clazz)
    (name : Option String) : Except JSError Container :=
  cont.register clazz RegType.singleton name

/-- `registerFactory`. -/
def Container.registerFactory (cont : Container) (clazz : Clazz)
    (name : Option String) : Except JSError Container :=
  cont.register clazz RegType.factory name

/-- The lookup-failure error of `getContext`, enumerating the registered
keys. -/
def lookupFailure (cont : Container) (key : RegKey) : JSError :=
  JSError.error ("Cannot find injection source for \"" ++ keyDisplay key ++
    "\". Available: [" ++
    String.intercalate ", " (cont.instances.map fun p => keyDisplay p.1) ++ "]")

/-- `getContext`: return the record for an exact key, or throw the
lookup-failure error. -/
def Container.getContext (cont : Container) (key : RegKey) :
    Except JSError InstanceContext :=
  match findCtx cont.instances key with
  | some ctx => Except.ok ctx
  | none => Except.error (lookupFailure cont key)

/-- `has`. -/
def Container.hasKey (cont : Container) (key : RegKey) : Bool :=
  (findCtx cont.instances key).isSome

/-- The singleton fast path of `getInstance` (line 116): the cached instance
is returned only when the record is a singleton and no mock is active. -/
def cacheHit (ctx : InstanceContext) : Option Value :=
  if ctx.type = RegType.singleton ∧ ctx.originalClazz = none then ctx.instance_
  else none

/-- The circular-dependency message built by `getInstance`'s catch clause. -/
def circularMsg (className : String) : String :=
  "Circular dependency detected for " ++ className ++
    ". Use @InjectLazy to break the cycle."

/-- The catch clause of `getInstance`: a `RangeError` is re-raised as a
circular-dependency `Error` naming the class; every other thrown value is
re-thrown unchanged. -/
def catchCtor (c : Clazz) (e : JSError) : JSError :=
  match e with
  | JSError.rangeError _ => JSError.error (circularMsg c.name)
  | e => e

/-- Lines 135-138 of `Container.js`: after the active-class instance is
constructed (allocation id `n`), if `proxy && originalClazz` a second
instance of the original class is constructed with the same params
(allocation id `n + 1`, outside the try/catch) and the two are wrapped by
`createProxy`. Returns the produced value and the next allocation id. -/
def buildValue (ctx : InstanceContext) (params : List Nat) (n : Nat) :
    Except JSError (Value × Nat) :=
  match ctx.originalClazz with
  | some oc =>
    if ctx.proxy then
      match ctorOutcome oc params with
      | some e => Except.error e
      | none =>
        Except.ok (Value.proxyView ⟨n, ctx.clazz, params⟩ ⟨n + 1, oc, params⟩,
          n + 2)
    else Except.ok (Value.obj ⟨n, ctx.clazz, params⟩, n + 1)
  | none => Except.ok (Value.obj ⟨n, ctx.clazz, params⟩, n + 1)

/-- `getInstance(instanceContext, params)`, with the allocation counter `n`
made explicit. Returns the produced value, the updated record (JavaScript
mutates the aliased record in place), and the new counter. -/
def getInstance (ctx : InstanceContext) (params : List Nat) (n : Nat) :
    Except JSError (Value × InstanceContext × Nat) :=
  match cacheHit ctx with
  | some v => Except.ok (v, ctx, n)
  | none =>
    match ctorOutcome ctx.clazz params with
    | some e => Except.error (catchCtor ctx.clazz e)
    | none =>
      match buildValue ctx params n with
      | Except.error e => Except.error e
      | Except.ok (v, n') =>
        if ctx.type = RegType.singleton then
          Except.ok (v, { ctx with instance_ := some v }, n')
        else Except.ok (v, ctx, n')

/-- The mock-already-active error of `registerMock`. -/
def mockActiveMsg : JSError :=
  JSError.error "Mock already defined, reset before mocking again"

/-- `registerMock`: look the record up (throwing `getContext`'s error if
absent), reject if a mock is already active, else save the active class into
`originalClazz`, install the mock as `clazz`, and set `proxy`. The cached
`instance` field is not touched. -/
def Container.registerMock (cont : Container) (key : RegKey) (mockClazz : Clazz)
    (useProxy : Bool) : Except JSError Container :=
  match cont.getContext key with
  | Except.error e => Except.error e
  | Except.ok ctx =>
    if ctx.originalClazz.isSome then Except.error mockActiveMsg
    else
      Except.ok ⟨updateCtx cont.instances key
        { ctx with
          originalClazz := some ctx.clazz
          proxy := useProxy
          clazz := mockClazz }⟩

/-- The not-registered error of `#restoreOriginal`. -/
def notRegisteredMsg (dispName : String) : JSError :=
  JSError.error ("Cannot reset mock for \"" ++ dispName ++ "\": not registered")

/-- The body of `#restoreOriginal` once a record is in hand: when a mock is
active, restore the original class and delete `instance`, `originalClazz`
and `proxy`; when no mock is active, do nothing. -/
def restorePure (ctx : InstanceContext) : InstanceContext :=
  match ctx.originalClazz with
  | some oc =>
    { ctx with
      clazz := oc
      instance_ := none
      originalClazz := none
      proxy := false }
  | none => ctx

/-- `#restoreOriginal`: throw when handed no record; otherwise restore. -/
def restoreOriginal (octx : Option InstanceContext) (dispName : String) :
    Except JSError InstanceContext :=
  match octx with
  | none => Except.error (notRegisteredMsg dispName)
  | some ctx => Except.ok (restorePure ctx)

/-- `resetMock(clazzOrName)`: restore the record found under the key,
throwing when the key has no record at all. -/
def Container.resetMock (cont : Container) (key : RegKey) :
    Except JSError Container :=
  match restoreOriginal (findCtx cont.instances key) (keyDisplay key) with
  | Except.error e => Except.error e
  | Except.ok ctx => Except.ok ⟨updateCtx cont.instances key ctx⟩

/-- Iterate `#restoreOriginal` over the map's records, in insertion order. -/
def resetAll : List (RegKey × InstanceContext) →
    Except JSError (List (RegKey × InstanceContext))
  | [] => Except.ok []
  | (k, c) :: rest =>
    match restoreOriginal (some c) "unknown" with
    | Except.error e => Except.error e
    | Except.ok c' =>
      match resetAll rest with
      | Except.error e => Except.error e
      | Except.ok rest' => Except.ok ((k, c') :: rest')

/-- `resetAllMocks`: call `#restoreOriginal` on every record. -/
def Container.resetAllMocks (cont : Container) :
    Except JSError Container :=
  match resetAll cont.instances with
  | Except.error e => Except.error e
  | Except.ok l => Except.ok ⟨l⟩

/-- `clear`: empty the registry. -/
def Container.clearAll (_cont : Container) : Container := ⟨[]⟩

/-- Modelled from the spec: `Container.resolve` is invoked by the `resolve`
convenience export in `index.js` but its body is not present under `src/`
(only its caller and its tests are). The spec states that `resolve` composes
`getContext` + `getInstance` as the single resolution code path; the
write-back of the updated record models the aliasing through which
`getInstance`'s mutation of the looked-up record is visible in the map. -/
def Container.resolve (cont : Container) (key : RegKey) (params : List Nat)
    (n : Nat) : Except JSError (Value × Container × Nat) :=
  match cont.getContext key with
  | Except.error e => Except.error e
  | Except.ok ctx =>
    match getInstance ctx params n with
    | Except.error e => Except.error e
    | Except.ok (v, ctx', n') =>
      Except.ok (v, ⟨updateCtx cont.instances key ctx'⟩, n')

/-- Member read on a plain instance: the value of the member, when the
instance's class (own or inherited members) provides it. -/
def readObjMember (o : Obj) (m : String) : Option Nat :=
  o.clazz.members.lookup m

/-- Modelled from the spec: member read through the delegating proxy of
`src/proxy.js`, which is not present under `src/` (only its import in
`Container.js` and its declaration in `index.d.ts` are). Reading a member of
the wrapped view returns the active object's value when the active object has
the member (own or inherited), and falls back to the fallback object's value
otherwise; a plain instance reads its own members. -/
def readMember : Value → String → Option Nat
  | Value.obj o, m => readObjMember o m
  | Value.proxyView a f, m =>
    match readObjMember a m with
    | some v => some v
    | none => readObjMember f m

/-- The `@Singleton(name)` decorator body from `index.js`: reject a
non-class decoration target, reject a target that is not a class constructor
(`typeof clazz !== 'function' || !clazz.prototype`), then register on the
container. `kind` is the decorator context's `kind` string. -/
def singletonDecorator (name : Option String) (clazz : Clazz) (kind : String)
    (cont : Container) : Except JSError Container :=
  if kind ≠ "class" then Except.error (JSError.error "Invalid injection target")
  else if ¬ clazz.isConstructor then
    Except.error (JSError.error "Target must be a class constructor")
  else cont.registerSingleton clazz name

/-- The `@Factory(name)` decorator body from `index.js`: same checks as
`@Singleton`, registering a factory. -/
def factoryDecorator (name : Option String) (clazz : Clazz) (kind : String)
    (cont : Container) : Except JSError Container :=
  if kind ≠ "class" then Except.error (JSError.error "Invalid injection target")
  else if ¬ clazz.isConstructor then
    Except.error (JSError.error "Target must be a class constructor")
  else cont.registerFactory clazz name

/-- The active object of a resolved value: the instance itself, or the
active side of a proxy view. -/
def Value.activeObj : Value → Obj
  | Value.obj o => o
  | Value.proxyView a _ => a

/-- The value-and-counter outcome of a `Container.resolve` call, forgetting
the updated registry. -/
def resolveOutcome (r : Except JSError (Value × Container × Nat)) :
    Except JSError (Value × Nat) :=
  match r with
  | Except.error e => Except.error e
  | Except.ok (v, _, n) => Except.ok (v, n)

/-- The value-and-counter outcome of calling `getContext` followed by
`getInstance`, forgetting the updated record. -/
def composedOutcome (cont : Container) (key : RegKey) (ps : List Nat)
    (n : Nat) : Except JSError (Value × Nat) :=
  match cont.getContext key with
  | Except.error e => Except.error e
  | Except.ok ctx =>
    match getInstance ctx ps n with
    | Except.error e => Except.error e
    | Except.ok (v, _, n') => Except.ok (v, n')

/-- No factory record carries a cached instance. -/
def factoryNoCache (cont : Container) : Prop :=
  ∀ p ∈ cont.instances, p.2.type = RegType.factory → p.2.instance_ = none

/-! ## Concrete fixtures for the witness checks -/

/-- A class with members `f` and `g`. -/
def classA : Clazz := ⟨0, "A", true, [], [("f", 10), ("g", 11)]⟩

/-- A mock for `classA` implementing only `f`, with different behaviour. -/
def classAMock : Clazz := ⟨1, "AMock", true, [], [("f", 20)]⟩

/-- A plain class with no members. -/
def classB : Clazz := ⟨2, "B", true, [], []⟩

/-- A registration target that is not invokable as a constructor. -/
def nonCtorTarget : Clazz := ⟨3, "notAClass", false, [], []⟩

/-- A class whose constructor blows the stack on every call (the runtime
raises a `RangeError`). -/
def cyclicClass : Clazz :=
  ⟨4, "Cyclic", true, [([], JSError.rangeError "Maximum call stack size exceeded")], []⟩

/-- A class whose constructor throws an application-level error. -/
def boomClass : Clazz := ⟨5, "Boom", true, [([], JSError.error "boom")], []⟩

/-- The default registration key of `classA`. -/
def keyA : RegKey := RegKey.cls 0 "A"

/-- The instance of `classA` allocated at id 0. -/
def valA : Value := Value.obj ⟨0, classA, []⟩

/-- The fresh singleton record of `classA`. -/
def ctxA : InstanceContext := ⟨RegType.singleton, classA, none, none, false⟩

/-- `classA`'s singleton record after one resolution cached `valA`. -/
def ctxACached : InstanceContext :=
  ⟨RegType.singleton, classA, none, some valA, false⟩

/-- The fresh factory record of `classB`. -/
def ctxB : InstanceContext := ⟨RegType.factory, classB, none, none, false⟩

/-- The container holding a fresh singleton registration of `classA`. -/
def contA : Container := ⟨[(keyA, ctxA)]⟩

/-- `contA` after one resolution cached `valA`. -/
def contACached : Container := ⟨[(keyA, ctxACached)]⟩

/-! ## Helper lemmas about the registry map -/

theorem findCtx_mem {l : List (RegKey × InstanceContext)} {key : RegKey}
    {ctx : InstanceContext} (h : findCtx l key = some ctx) : (key, ctx) ∈ l := by
  induction l with
  | nil => simp [findCtx] at h
  | cons p rest ih =>
    obtain ⟨k, c⟩ := p
    simp only [findCtx] at h
    split at h
    · rename_i heq
      injection h with h
      subst heq h
      exact List.mem_cons_self _ _
    · exact List.mem_cons_of_mem _ (ih h)

theorem findCtx_updateCtx_self {l : List (RegKey × InstanceContext)}
    {key : RegKey} {ctx₀ : InstanceContext} (ctx : InstanceContext)
    (h : findCtx l key = some ctx₀) :
    findCtx (updateCtx l key ctx) key = some ctx := by
  induction l with
  | nil => simp [findCtx] at h
  | cons p rest ih =>
    obtain ⟨k, c⟩ := p
    by_cases hk : k = key
    · subst hk
      simp [updateCtx, findCtx]
    · simp only [findCtx, if_neg hk] at h
      simp only [updateCtx, if_neg hk, findCtx]
      exact ih h

theorem updateCtx_self {l : List (RegKey × InstanceContext)} {key : RegKey}
    {ctx : InstanceContext} (h : findCtx l key = some ctx) :
    updateCtx l key ctx = l := by
  induction l with
  | nil => rfl
  | cons p rest ih =>
    obtain ⟨k, c⟩ := p
    by_cases hk : k = key
    · subst hk
      simp only [findCtx, if_pos rfl] at h
      injection h with h
      subst h
      simp [updateCtx]
    · simp only [findCtx, if_neg hk] at h
      simp only [updateCtx, if_neg hk]
      rw [ih h]

theorem mem_updateCtx {l : List (RegKey × InstanceContext)} {key : RegKey}
    {ctx : InstanceContext} {q : RegKey × InstanceContext}
    (h : q ∈ updateCtx l key ctx) : q ∈ l ∨ q = (key, ctx) := by
  induction l with
  | nil => simp [updateCtx] at h
  | cons p rest ih =>
    obtain ⟨k, c⟩ := p
    by_cases hk : k = key
    · subst hk
      simp only [updateCtx, if_pos rfl] at h
      rcases List.mem_cons.mp h with h | h
      · exact Or.inr h
      · exact Or.inl (List.mem_cons_of_mem _ h)
    · simp only [updateCtx, if_neg hk] at h
      rcases List.mem_cons.mp h with h | h
      · exact Or.inl (h ▸ List.mem_cons_self _ _)
      · rcases ih h with h | h
        · exact Or.inl (List.mem_cons_of_mem _ h)
        · exact Or.inr h

/-! ## Helper lemmas about values and freshness -/

theorem Value.freshBelow_iff {v : Value} {n : Nat} :
    v.freshBelow n = true ↔ ∀ a ∈ v.aids, a < n := by
  simp [Value.freshBelow, List.all_eq_true]

theorem Value.freshBelow_mono {v : Value} {n m : Nat}
    (h : v.freshBelow n = true) (hnm : n ≤ m) : v.freshBelow m = true := by
  rw [Value.freshBelow_iff] at h ⊢
  exact fun a ha => lt_of_lt_of_le (h a ha) hnm

theorem Value.ne_of_freshBelow {v w : Value} {n : Nat}
    (h : v.freshBelow n = true) (hw : n ∈ w.aids) : w ≠ v := by
  intro he
  subst he
  exact absurd (Value.freshBelow_iff.mp h n hw) (lt_irrefl n)

theorem ctxFresh_mono {ctx : InstanceContext} {n m : Nat}
    (h : ctxFresh ctx n = true) (hnm : n ≤ m) : ctxFresh ctx m = true := by
  cases hw : ctx.instance_ with
  | none => simp [ctxFresh, hw]
  | some w =>
    have h' : w.freshBelow n = true := by simpa [ctxFresh, hw] using h
    simpa [ctxFresh, hw] using Value.freshBelow_mono h' hnm

/-! ## Characterizations of the Container operations -/

theorem cacheHit_eq_some {ctx : InstanceContext} {v : Value}
    (h : cacheHit ctx = some v) :
    ctx.type = RegType.singleton ∧ ctx.originalClazz = none ∧
      ctx.instance_ = some v := by
  unfold cacheHit at h
  split at h
  · rename_i hc
    exact ⟨hc.1, hc.2, h⟩
  · simp at h

theorem cacheHit_of_mock {ctx : InstanceContext} {oc : Clazz}
    (h : ctx.originalClazz = some oc) : cacheHit ctx = none := by
  simp [cacheHit, h]

theorem cacheHit_of_factory {ctx : InstanceContext}
    (h : ctx.type = RegType.factory) : cacheHit ctx = none := by
  simp [cacheHit, h]

theorem cacheHit_hit {ctx : InstanceContext} {v : Value}
    (hty : ctx.type = RegType.singleton) (hmk : ctx.originalClazz = none)
    (hi : ctx.instance_ = some v) : cacheHit ctx = some v := by
  simp [cacheHit, hty, hmk, hi]

theorem getContext_ok {cont : Container} {key : RegKey} {ctx : InstanceContext} :
    cont.getContext key = Except.ok ctx ↔ findCtx cont.instances key = some ctx := by
  unfold Container.getContext
  split <;> simp_all

theorem buildValue_ok {ctx : InstanceContext} {ps : List Nat} {n : Nat}
    {v : Value} {n' : Nat} (h : buildValue ctx ps n = Except.ok (v, n')) :
    (v = Value.obj ⟨n, ctx.clazz, ps⟩ ∧ n' = n + 1) ∨
    (∃ oc, ctx.originalClazz = some oc ∧ ctx.proxy = true ∧
      ctorOutcome oc ps = none ∧
      v = Value.proxyView ⟨n, ctx.clazz, ps⟩ ⟨n + 1, oc, ps⟩ ∧ n' = n + 2) := by
  unfold buildValue at h
  split at h
  · rename_i oc hoc
    split at h
    · rename_i hproxy
      split at h
      · simp at h
      · rename_i hctor
        simp only [Except.ok.injEq, Prod.mk.injEq] at h
        exact Or.inr ⟨oc, hoc, hproxy, hctor, h.1.symm, h.2.symm⟩
    · simp only [Except.ok.injEq, Prod.mk.injEq] at h
      exact Or.inl ⟨h.1.symm, h.2.symm⟩
  · simp only [Except.ok.injEq, Prod.mk.injEq] at h
    exact Or.inl ⟨h.1.symm, h.2.symm⟩

theorem getInstance_cases {ctx : InstanceContext} {ps : List Nat} {n : Nat}
    {v : Value} {ctx' : InstanceContext} {n' : Nat}
    (h : getInstance ctx ps n = Except.ok (v, ctx', n')) :
    (cacheHit ctx = some v ∧ ctx' = ctx ∧ n' = n) ∨
    (cacheHit ctx = none ∧ ctorOutcome ctx.clazz ps = none ∧
      buildValue ctx ps n = Except.ok (v, n') ∧
      ((ctx.type = RegType.singleton ∧ ctx' = { ctx with instance_ := some v }) ∨
       (¬ ctx.type = RegType.singleton ∧ ctx' = ctx))) := by
  unfold getInstance at h
  split at h
  · rename_i v₀ hhit
    simp only [Except.ok.injEq, Prod.mk.injEq] at h
    obtain ⟨h1, h2, h3⟩ := h
    exact Or.inl ⟨by rw [hhit, h1], h2.symm, h3.symm⟩
  · rename_i hhit
    split at h
    · simp at h
    · rename_i hctor
      split at h
      · simp at h
      · rename_i v₀ n₀ hbv
        split at h
        · rename_i hty
          simp only [Except.ok.injEq, Prod.mk.injEq] at h
          obtain ⟨h1, h2, h3⟩ := h
          subst h1 h3
          exact Or.inr ⟨hhit, hctor, hbv, Or.inl ⟨hty, h2.symm⟩⟩
        · rename_i hty
          simp only [Except.ok.injEq, Prod.mk.injEq] at h
          obtain ⟨h1, h2, h3⟩ := h
          subst h1 h3
          exact Or.inr ⟨hhit, hctor, hbv, Or.inr ⟨hty, h2.symm⟩⟩

theorem getInstance_preserves {ctx : InstanceContext} {ps : List Nat} {n : Nat}
    {v : Value} {ctx' : InstanceContext} {n' : Nat}
    (h : getInstance ctx ps n = Except.ok (v, ctx', n')) :
    ctx'.type = ctx.type ∧ ctx'.clazz = ctx.clazz ∧
      ctx'.originalClazz = ctx.originalClazz ∧ ctx'.proxy = ctx.proxy := by
  rcases getInstance_cases h with ⟨_, rfl, _⟩ | ⟨_, _, _, ⟨_, rfl⟩ | ⟨_, rfl⟩⟩ <;>
    simp

theorem getInstance_counter {ctx : InstanceContext} {ps : List Nat} {n : Nat}
    {v : Value} {ctx' : InstanceContext} {n' : Nat}
    (h : getInstance ctx ps n = Except.ok (v, ctx', n')) : n ≤ n' := by
  rcases getInstance_cases h with ⟨_, _, rfl⟩ | ⟨_, _, hbv, _⟩
  · exact Nat.le_refl _
  · rcases buildValue_ok hbv with ⟨_, rfl⟩ | ⟨_, _, _, _, _, rfl⟩ <;> omega

theorem registerMock_ok {cont : Container} {key : RegKey} {M : Clazz} {p : Bool}
    {cont₂ : Container} (h : cont.registerMock key M p = Except.ok cont₂) :
    ∃ ctx, findCtx cont.instances key = some ctx ∧ ctx.originalClazz = none ∧
      cont₂ = ⟨updateCtx cont.instances key
        { ctx with originalClazz := some ctx.clazz, proxy := p, clazz := M }⟩ := by
  unfold Container.registerMock at h
  split at h
  · simp at h
  · rename_i ctx hget
    split at h
    · simp at h
    · rename_i hno
      have hnone : ctx.originalClazz = none := by
        cases hoc : ctx.originalClazz
        · rfl
        · rw [hoc] at hno
          simp at hno
      injection h with h
      exact ⟨ctx, getContext_ok.mp hget, hnone, h.symm⟩

theorem resolve_ok {cont : Container} {key : RegKey} {ps : List Nat} {n : Nat}
    {v : Value} {cont' : Container} {n' : Nat}
    (h : cont.resolve key ps n = Except.ok (v, cont', n')) :
    ∃ ctx ctx₂, findCtx cont.instances key = some ctx ∧
      getInstance ctx ps n = Except.ok (v, ctx₂, n') ∧
      cont' = ⟨updateCtx cont.instances key ctx₂⟩ := by
  unfold Container.resolve at h
  split at h
  · simp at h
  · rename_i ctx hget
    split at h
    · simp at h
    · rename_i v₀ ctx₂ n₀ hgi
      simp only [Except.ok.injEq, Prod.mk.injEq] at h
      obtain ⟨h1, h2, h3⟩ := h
      subst h1 h3
      exact ⟨ctx, ctx₂, getContext_ok.mp hget, hgi, h2.symm⟩

theorem getInstance_shape {ctx : InstanceContext} {ps : List Nat} {n : Nat}
    {v : Value} {ctx' : InstanceContext} {n' : Nat}
    (hmiss : cacheHit ctx = none)
    (h : getInstance ctx ps n = Except.ok (v, ctx', n')) :
    v.activeObj = ⟨n, ctx.clazz, ps⟩ ∧ n ∈ v.aids ∧ v.freshBelow n' = true := by
  rcases getInstance_cases h with ⟨hhit, _, _⟩ | ⟨_, _, hbv, _⟩
  · rw [hmiss] at hhit
    cases hhit
  · rcases buildValue_ok hbv with ⟨rfl, rfl⟩ | ⟨oc, _, _, _, rfl, rfl⟩ <;>
      simp [Value.activeObj, Value.aids, Value.freshBelow]

theorem getInstance_fresh {ctx : InstanceContext} {ps : List Nat} {n : Nat}
    {v : Value} {ctx' : InstanceContext} {n' : Nat}
    (hf : ctxFresh ctx n = true)
    (h : getInstance ctx ps n = Except.ok (v, ctx', n')) :
    v.freshBelow n' = true ∧ ctxFresh ctx' n' = true := by
  rcases getInstance_cases h with ⟨hhit, rfl, rfl⟩ | ⟨hmiss, _, hbv, hctx⟩
  · obtain ⟨_, _, hi⟩ := cacheHit_eq_some hhit
    have hv : v.freshBelow n' = true := by simpa [ctxFresh, hi] using hf
    exact ⟨hv, hf⟩
  · have hc := getInstance_counter h
    have hv : v.freshBelow n' = true := (getInstance_shape hmiss h).2.2
    refine ⟨hv, ?_⟩
    rcases hctx with ⟨_, rfl⟩ | ⟨_, rfl⟩
    · simpa [ctxFresh] using hv
    · exact ctxFresh_mono hf hc

theorem resetAll_eq (l : List (RegKey × InstanceContext)) :
    resetAll l = Except.ok (l.map fun p => (p.1, restorePure p.2)) := by
  induction l with
  | nil => rfl
  | cons p rest ih =>
    obtain ⟨k, c⟩ := p
    simp [resetAll, restoreOriginal, ih]

theorem buildValue_proxy {ctx : InstanceContext} {ps : List Nat} {n : Nat}
    {v : Value} {n' : Nat} {oc : Clazz} (hoc : ctx.originalClazz = some oc)
    (hp : ctx.proxy = true) (h : buildValue ctx ps n = Except.ok (v, n')) :
    v = Value.proxyView ⟨n, ctx.clazz, ps⟩ ⟨n + 1, oc, ps⟩ ∧ n' = n + 2 := by
  rcases buildValue_ok h with ⟨rfl, rfl⟩ | ⟨oc', hoc', _, _, rfl, rfl⟩
  · exfalso
    unfold buildValue at h
    rw [hoc] at h
    simp only [hp, if_true] at h
    split at h
    · simp at h
    · simp only [Except.ok.injEq, Prod.mk.injEq] at h
      exact absurd h.1 (by simp)
  · rw [hoc] at hoc'
    injection hoc' with hoc'
    subst hoc'
    exact ⟨rfl, rfl⟩

theorem restorePure_type (ctx : InstanceContext) :
    (restorePure ctx).type = ctx.type := by
  unfold restorePure
  split <;> rfl

theorem restorePure_instance (ctx : InstanceContext) :
    (restorePure ctx).instance_ = none ∨ restorePure ctx = ctx := by
  unfold restorePure
  split
  · exact Or.inl rfl
  · exact Or.inr rfl

theorem restorePure_of_unmocked {ctx : InstanceContext}
    (h : ctx.originalClazz = none) : restorePure ctx = ctx := by
  unfold restorePure
  rw [h]

theorem register_ok {cont : Container} {c : Clazz} {ty : RegType}
    {nm : Option String} {cont' : Container}
    (h : cont.register c ty nm = Except.ok cont') :
    cont' = ⟨cont.instances ++
      [(registrationKey c nm, { type := ty, clazz := c })]⟩ := by
  unfold Container.register at h
  dsimp only [] at h
  split at h
  · simp at h
  · injection h with h
    exact h.symm

/-! ## Claim theorems -/

/-- C1: `resolve(key, ...params)` composes `getContext` and `getInstance`
through the single resolution code path: its value-and-counter outcome
(instance returned, errors raised, allocations performed) is exactly that of
calling `getContext` followed by `getInstance`, and on an unregistered key it
fails with the lookup-failure error. -/
theorem resolve_composes_lookup_and_getInstance (cont : Container)
    (key : RegKey) (ps : List Nat) (n : Nat) :
    resolveOutcome (cont.resolve key ps n) = composedOutcome cont key ps n ∧
    (cont.hasKey key = false →
      cont.resolve key ps n = Except.error (lookupFailure cont key)) := by
  constructor
  · unfold resolveOutcome composedOutcome Container.resolve
    cases hget : cont.getContext key with
    | error e => simp
    | ok ctx =>
      cases hgi : getInstance ctx ps n with
      | error e => simp [hgi]
      | ok r =>
        obtain ⟨v, ctx', n'⟩ := r
        simp [hgi]
  · intro hk
    have hfc : findCtx cont.instances key = none := by
      unfold Container.hasKey at hk
      cases hfc : findCtx cont.instances key with
      | none => rfl
      | some c => rw [hfc] at hk; simp at hk
    simp [Container.resolve, Container.getContext, hfc]

/-- C1 witness: on the empty container the key of `classA` is unregistered
and `resolve` fails with the lookup failure. -/
theorem resolve_composes_lookup_and_getInstance_witness :
    (Container.mk []).hasKey keyA = false ∧
    (Container.mk []).resolve keyA [] 0 =
      Except.error (lookupFailure ⟨[]⟩ keyA) :=
  ⟨rfl, (resolve_composes_lookup_and_getInstance ⟨[]⟩ keyA [] 0).2 rfl⟩

/-- C4: when `getInstance` actually constructs (no cache hit) and the active
class's constructor raises a recursion-limit `RangeError`, the failure is
re-raised as a circular-dependency `Error` naming the class and pointing at
`@InjectLazy` (deferred resolution); any other constructor failure propagates
to the caller unchanged. -/
theorem getInstance_ctor_error_handling (ctx : InstanceContext)
    (ps : List Nat) (n : Nat) (hmiss : cacheHit ctx = none) :
    (∀ m, ctorOutcome ctx.clazz ps = some (JSError.rangeError m) →
      getInstance ctx ps n =
        Except.error (JSError.error (circularMsg ctx.clazz.name))) ∧
    (∀ e, ctorOutcome ctx.clazz ps = some e →
      (∀ m, e ≠ JSError.rangeError m) →
      getInstance ctx ps n = Except.error e) := by
  constructor
  · intro m hc
    simp [getInstance, hmiss, hc, catchCtor]
  · intro e hc hne
    cases e with
    | rangeError m => exact absurd rfl (hne m)
    | error m => simp [getInstance, hmiss, hc, catchCtor]
    | other t => simp [getInstance, hmiss, hc, catchCtor]

/-- C4 witness: a stack-overflowing constructor is reported as a circular
dependency naming the class, while an ordinary constructor error comes
through verbatim. -/
theorem getInstance_ctor_error_handling_witness :
    getInstance { type := RegType.singleton, clazz := cyclicClass } [] 0 =
      Except.error (JSError.error (circularMsg "Cyclic")) ∧
    getInstance { type := RegType.singleton, clazz := boomClass } [] 0 =
      Except.error (JSError.error "boom") :=
  ⟨(getInstance_ctor_error_handling
      { type := RegType.singleton, clazz := cyclicClass } [] 0 rfl).1
      "Maximum call stack size exceeded" rfl,
   (getInstance_ctor_error_handling
      { type := RegType.singleton, clazz := boomClass } [] 0 rfl).2
      (JSError.error "boom") rfl (fun _ h => JSError.noConfusion h)⟩

/-- C8 counterexample: the container-level `registerSingleton` performs no
constructibility check. Registering `nonCtorTarget`, which is not invokable
as a constructor, raises no error and inserts a record — contradicting the
claim that `registerSingleton` rejects non-constructible targets. -/
theorem registerSingleton_accepts_non_ctor :
    nonCtorTarget.isConstructor = false ∧
    (Container.mk []).registerSingleton nonCtorTarget none =
      Except.ok ⟨[(RegKey.cls 3 "notAClass",
        { type := RegType.singleton, clazz := nonCtorTarget })]⟩ ∧
    Container.hasKey ⟨[(RegKey.cls 3 "notAClass",
        { type := RegType.singleton, clazz := nonCtorTarget })]⟩
      (RegKey.cls 3 "notAClass") = true :=
  ⟨rfl, rfl, rfl⟩

/-- C8 (amended): the registration entry points that enforce the
constructible-target constraint are the `@Singleton` and `@Factory`
decorators in `index.js`: on a target that is not invokable as a constructor
they fail with the `Target must be a class constructor` error before any
record is inserted; `Container.registerSingleton` / `registerFactory`
themselves perform no such check. -/
theorem decorators_reject_non_ctor (name : Option String) (clazz : Clazz)
    (cont : Container) (h : clazz.isConstructor = false) :
    singletonDecorator name clazz "class" cont =
      Except.error (JSError.error "Target must be a class constructor") ∧
    factoryDecorator name clazz "class" cont =
      Except.error (JSError.error "Target must be a class constructor") := by
  refine ⟨?_, ?_⟩ <;> simp [singletonDecorator, factoryDecorator, h]

/-- C8 witness: the decorators reject the concrete non-constructible
target. -/
theorem decorators_reject_non_ctor_witness :
    singletonDecorator none nonCtorTarget "class" ⟨[]⟩ =
      Except.error (JSError.error "Target must be a class constructor") ∧
    factoryDecorator none nonCtorTarget "class" ⟨[]⟩ =
      Except.error (JSError.error "Target must be a class constructor") :=
  decorators_reject_non_ctor none nonCtorTarget ⟨[]⟩ rfl

/-- C9: `resetMock` fails with the not-registered error exactly when no
record exists for the key: on a key with no record it errors, while on every
registered record — mocked or not — it succeeds without error (restoring the
record); on a registered but unmocked record it is moreover a silent no-op
returning the container unchanged; and `resetAllMocks` never fails. -/
theorem resetMock_error_discipline :
    (∀ (cont : Container) (key : RegKey),
      findCtx cont.instances key = none →
      cont.resetMock key = Except.error (notRegisteredMsg (keyDisplay key))) ∧
    (∀ (cont : Container) (key : RegKey) (ctx : InstanceContext),
      findCtx cont.instances key = some ctx →
      cont.resetMock key =
        Except.ok ⟨updateCtx cont.instances key (restorePure ctx)⟩) ∧
    (∀ (cont : Container) (key : RegKey) (ctx : InstanceContext),
      findCtx cont.instances key = some ctx → ctx.originalClazz = none →
      cont.resetMock key = Except.ok cont) ∧
    (∀ cont : Container, ∃ cont' : Container,
      cont.resetAllMocks = Except.ok cont') := by
  refine ⟨?_, ?_, ?_, ?_⟩
  · intro cont key h
    simp [Container.resetMock, restoreOriginal, h]
  · intro cont key ctx hfind
    simp [Container.resetMock, restoreOriginal, hfind]
  · intro cont key ctx hfind hno
    simp only [Container.resetMock, restoreOriginal, hfind,
      restorePure_of_unmocked hno]
    rw [updateCtx_self hfind]
  · intro cont
    exact ⟨⟨cont.instances.map fun p => (p.1, restorePure p.2)⟩, by
      simp [Container.resetAllMocks, resetAll_eq]⟩

/-- C9 witness: resetting an unregistered key errors; resetting the mocked
`classA` record (mock active, stale cache present) succeeds without error and
restores the original record; resetting the registered-but-unmocked `classA`
record is a silent no-op; `resetAllMocks` succeeds. -/
theorem resetMock_error_discipline_witness :
    (Container.mk []).resetMock keyA =
      Except.error (notRegisteredMsg "A") ∧
    Container.resetMock ⟨[(keyA, ⟨RegType.singleton, classAMock, some classA,
      some valA, false⟩)]⟩ keyA = Except.ok ⟨[(keyA, ctxA)]⟩ ∧
    contA.resetMock keyA = Except.ok contA ∧
    ∃ cont', contA.resetAllMocks = Except.ok cont' :=
  ⟨resetMock_error_discipline.1 ⟨[]⟩ keyA rfl,
   resetMock_error_discipline.2.1
     ⟨[(keyA, ⟨RegType.singleton, classAMock, some classA, some valA, false⟩)]⟩
     keyA ⟨RegType.singleton, classAMock, some classA, some valA, false⟩ rfl,
   resetMock_error_discipline.2.2.1 contA keyA
     { type := RegType.singleton, clazz := classA } rfl rfl,
   resetMock_error_discipline.2.2.2 contA⟩


/-- C2 counterexample: `registerMock` does not clear the cached instance.
Starting from an empty container, registering `classA` as a singleton,
resolving once (caching the instance), and then registering a mock leaves the
record still holding the pre-mock cached instance — the claim's "after the
call the record holds no cached instance" is false at this input. -/
theorem registerMock_keeps_cached_instance :
    (Container.mk []).registerSingleton classA none = Except.ok contA ∧
    contA.resolve keyA [] 0 = Except.ok (valA, contACached, 1) ∧
    contACached.registerMock keyA classAMock false =
      Except.ok ⟨[(keyA, ⟨RegType.singleton, classAMock, some classA,
        some valA, false⟩)]⟩ ∧
    findCtx [(keyA, (⟨RegType.singleton, classAMock, some classA, some valA,
        false⟩ : InstanceContext))] keyA =
      some ⟨RegType.singleton, classAMock, some classA, some valA, false⟩ ∧
    (⟨RegType.singleton, classAMock, some classA, some valA,
        false⟩ : InstanceContext).instance_ ≠ none :=
  ⟨rfl, rfl, rfl, rfl, fun h => Option.noConfusion h⟩

/-- C2 (amended): on a registered key with no active mock, `registerMock`
sets the record's `originalClazz` to the previous active class, installs the
mock as the active class, and sets `proxy` as given — but it leaves the
cached instance untouched. The stale cache is never served while the mock is
active only because the singleton fast path requires that no mock be active,
and it is deleted when the mock is reset. -/
theorem registerMock_sets_mock_fields (cont : Container) (key : RegKey)
    (M : Clazz) (p : Bool) (ctx : InstanceContext)
    (hfind : findCtx cont.instances key = some ctx)
    (hno : ctx.originalClazz = none) :
    cont.registerMock key M p = Except.ok ⟨updateCtx cont.instances key
      { ctx with originalClazz := some ctx.clazz, proxy := p, clazz := M }⟩ ∧
    ({ ctx with originalClazz := some ctx.clazz, proxy := p, clazz := M } :
      InstanceContext).instance_ = ctx.instance_ := by
  refine ⟨?_, rfl⟩
  have hget : cont.getContext key = Except.ok ctx := getContext_ok.mpr hfind
  simp [Container.registerMock, hget, hno]

/-- C2 amended witness: registering a mock on the cached `classA` record
produces exactly the record with the mock fields set and the old cached
instance still present. -/
theorem registerMock_sets_mock_fields_witness :
    contACached.registerMock keyA classAMock true =
      Except.ok ⟨updateCtx contACached.instances keyA
        { ctxACached with
          originalClazz := some ctxACached.clazz
          proxy := true
          clazz := classAMock }⟩ ∧
    ({ ctxACached with
      originalClazz := some ctxACached.clazz
      proxy := true
      clazz := classAMock } : InstanceContext).instance_ =
      ctxACached.instance_ :=
  registerMock_sets_mock_fields contACached keyA classAMock true ctxACached
    rfl rfl

/-- C5: on a singleton record with no active mock, a successful `getInstance`
caches its result, and any further `getInstance` call returns the identical
instance with the record and allocation counter unchanged — the constructor
runs only on the first call and later constructor arguments are ignored. -/
theorem singleton_resolution_identity (ctx : InstanceContext)
    (ps₁ ps₂ : List Nat) (n : Nat) (v : Value) (ctx' : InstanceContext)
    (n' : Nat) (hty : ctx.type = RegType.singleton)
    (hmk : ctx.originalClazz = none)
    (h₁ : getInstance ctx ps₁ n = Except.ok (v, ctx', n')) :
    ctx'.instance_ = some v ∧
    getInstance ctx' ps₂ n' = Except.ok (v, ctx', n') := by
  rcases getInstance_cases h₁ with ⟨hhit, rfl, rfl⟩ | ⟨_, _, _, hctx⟩
  · obtain ⟨_, _, hi⟩ := cacheHit_eq_some hhit
    refine ⟨hi, ?_⟩
    unfold getInstance
    rw [hhit]
  · rcases hctx with ⟨_, rfl⟩ | ⟨hnot, _⟩
    · have hhit2 : cacheHit { ctx with instance_ := some v } = some v :=
        cacheHit_hit hty hmk rfl
      refine ⟨rfl, ?_⟩
      unfold getInstance
      rw [hhit2]
    · exact absurd hty hnot

/-- C5 witness: after `classA`'s singleton record caches the instance
allocated at id 0, a second call with different parameters returns the very
same instance without advancing the allocation counter. -/
theorem singleton_resolution_identity_witness :
    ctxACached.instance_ = some valA ∧
    getInstance ctxACached [9] 1 = Except.ok (valA, ctxACached, 1) :=
  singleton_resolution_identity ctxA [] [9] 0 valA ctxACached 1 rfl rfl rfl

/-- C6: on a factory record every successful `getInstance` call leaves the
record untouched (in particular its cache stays empty) and returns an
instance distinct from the one returned by any earlier call, even with
identical parameters; moreover the no-factory-cache property is preserved by
every container operation (register, registerMock, resetMock, resetAllMocks,
resolve). -/
theorem factory_distinct_and_uncached (ctx : InstanceContext)
    (ps₁ ps₂ : List Nat) (n m : Nat) (v₁ v₂ : Value)
    (ctx₁ ctx₂ : InstanceContext) (n₁ n₂ : Nat)
    (hty : ctx.type = RegType.factory)
    (h₁ : getInstance ctx ps₁ n = Except.ok (v₁, ctx₁, n₁))
    (hm : n₁ ≤ m)
    (h₂ : getInstance ctx₁ ps₂ m = Except.ok (v₂, ctx₂, n₂)) :
    (v₂ ≠ v₁ ∧ ctx₁ = ctx ∧ ctx₂ = ctx) ∧
    (∀ (cont cont' : Container) (c : Clazz) (ty : RegType) (nm : Option String),
      factoryNoCache cont → cont.register c ty nm = Except.ok cont' →
      factoryNoCache cont') ∧
    (∀ (cont cont' : Container) (key : RegKey) (M : Clazz) (p : Bool),
      factoryNoCache cont → cont.registerMock key M p = Except.ok cont' →
      factoryNoCache cont') ∧
    (∀ (cont cont' : Container) (key : RegKey),
      factoryNoCache cont → cont.resetMock key = Except.ok cont' →
      factoryNoCache cont') ∧
    (∀ cont cont' : Container,
      factoryNoCache cont → cont.resetAllMocks = Except.ok cont' →
      factoryNoCache cont') ∧
    (∀ (cont cont' : Container) (key : RegKey) (ps : List Nat) (k k' : Nat)
      (v : Value), factoryNoCache cont →
      cont.resolve key ps k = Except.ok (v, cont', k') →
      factoryNoCache cont') := by
  have hmiss : cacheHit ctx = none := cacheHit_of_factory hty
  have hctx₁ : ctx₁ = ctx := by
    rcases getInstance_cases h₁ with ⟨hhit, _, _⟩ | ⟨_, _, _, ⟨hs, _⟩ | ⟨_, rfl⟩⟩
    · rw [hmiss] at hhit; cases hhit
    · rw [hty] at hs; cases hs
    · rfl
  rw [hctx₁] at h₂
  have hctx₂ : ctx₂ = ctx := by
    rcases getInstance_cases h₂ with ⟨hhit, _, _⟩ | ⟨_, _, _, ⟨hs, _⟩ | ⟨_, rfl⟩⟩
    · rw [hmiss] at hhit; cases hhit
    · rw [hty] at hs; cases hs
    · rfl
  have hfresh₁ : v₁.freshBelow n₁ = true := (getInstance_shape hmiss h₁).2.2
  have hmem₂ : m ∈ v₂.aids := (getInstance_shape hmiss h₂).2.1
  refine ⟨⟨Value.ne_of_freshBelow (Value.freshBelow_mono hfresh₁ hm) hmem₂,
    hctx₁, hctx₂⟩, ?_, ?_, ?_, ?_, ?_⟩
  · intro cont cont' c ty nm hinv hreg
    obtain rfl := register_ok hreg
    intro q hq hqty
    rcases List.mem_append.mp hq with hq | hq
    · exact hinv q hq hqty
    · rcases List.mem_singleton.mp hq with rfl
      rfl
  · intro cont cont' key M p hinv hreg
    obtain ⟨c, hfc, hno, rfl⟩ := registerMock_ok hreg
    intro q hq hqty
    rcases mem_updateCtx hq with hq | rfl
    · exact hinv q hq hqty
    · exact hinv (key, c) (findCtx_mem hfc) hqty
  · intro cont cont' key hinv hrs
    unfold Container.resetMock at hrs
    split at hrs
    · simp at hrs
    · rename_i c hfc
      injection hrs with hrs
      subst hrs
      unfold restoreOriginal at hfc
      split at hfc
      · simp at hfc
      · rename_i ctx₀ hfind
        injection hfc with hfc
        subst hfc
        intro q hq hqty
        rcases mem_updateCtx hq with hq | rfl
        · exact hinv q hq hqty
        · rcases restorePure_instance ctx₀ with hri | hri
          · exact hri
          · rw [hri] at hqty ⊢
            exact hinv (key, ctx₀) (findCtx_mem hfind) hqty
  · intro cont cont' hinv hra
    rw [Container.resetAllMocks, resetAll_eq] at hra
    injection hra with hra
    subst hra
    intro q hq hqty
    rcases List.mem_map.mp hq with ⟨p, hp, rfl⟩
    rcases restorePure_instance p.2 with hri | hri
    · exact hri
    · rw [hri] at hqty ⊢
      exact hinv p hp hqty
  · intro cont cont' key ps k k' v hinv hres
    obtain ⟨c, c₂, hfc, hgi, rfl⟩ := resolve_ok hres
    intro q hq hqty
    rcases mem_updateCtx hq with hq | rfl
    · exact hinv q hq hqty
    · rcases getInstance_cases hgi with ⟨_, hcc, _⟩ |
        ⟨_, _, _, ⟨hs, hcc⟩ | ⟨_, hcc⟩⟩
      · rw [hcc] at hqty ⊢
        exact hinv (key, c) (findCtx_mem hfc) hqty
      · rw [hcc] at hqty
        have hft : c.type = RegType.factory := hqty
        rw [hs] at hft
        cases hft
      · rw [hcc] at hqty ⊢
        exact hinv (key, c) (findCtx_mem hfc) hqty

/-- C6 witness: two resolutions of the factory `classB` record at successive
counters return distinct instances and leave the record unchanged. -/
theorem factory_distinct_and_uncached_witness :
    Value.obj ⟨1, classB, []⟩ ≠ Value.obj ⟨0, classB, []⟩ ∧ ctxB = ctxB :=
  ⟨(factory_distinct_and_uncached ctxB [] [] 0 1 (Value.obj ⟨0, classB, []⟩)
      (Value.obj ⟨1, classB, []⟩) ctxB ctxB 1 2 rfl rfl (Nat.le_refl 1)
      rfl).1.1,
   (factory_distinct_and_uncached ctxB [] [] 0 1 (Value.obj ⟨0, classB, []⟩)
      (Value.obj ⟨1, classB, []⟩) ctxB ctxB 1 2 rfl rfl (Nat.le_refl 1)
      rfl).1.2.1⟩

theorem instances_mk (l : List (RegKey × InstanceContext)) :
    (Container.mk l).instances = l := rfl

/-- C7: after `registerMock(K, M, true)` on a record with no active mock,
resolving K yields the delegating proxy view over a fresh instance of the
mock class and a fresh instance of the original class constructed with the
same parameters; member reads return the mock's value for every member the
mock (class or inherited) provides, and fall back to the original-class
instance's value otherwise. -/
theorem proxy_mock_member_fallback (cont : Container) (key : RegKey)
    (M : Clazz) (ctx : InstanceContext) (ps : List Nat) (n : Nat) (v : Value)
    (cont₂ cont₃ : Container) (n' : Nat)
    (hfind : findCtx cont.instances key = some ctx)
    (hmk : cont.registerMock key M true = Except.ok cont₂)
    (hres : cont₂.resolve key ps n = Except.ok (v, cont₃, n')) :
    v = Value.proxyView ⟨n, M, ps⟩ ⟨n + 1, ctx.clazz, ps⟩ ∧
    (∀ mem val, M.members.lookup mem = some val →
      readMember v mem = some val) ∧
    (∀ mem, M.members.lookup mem = none →
      readMember v mem = ctx.clazz.members.lookup mem) := by
  obtain ⟨ctx₀, hf₀, hno₀, rfl⟩ := registerMock_ok hmk
  rw [hfind] at hf₀
  injection hf₀ with hf₀
  subst hf₀
  obtain ⟨ctxe, ctxf, hfe, hgie, rfl⟩ := resolve_ok hres
  rw [instances_mk] at hfe
  rw [findCtx_updateCtx_self
    { ctx with originalClazz := some ctx.clazz, proxy := true, clazz := M }
    hfind] at hfe
  injection hfe with hfe
  subst hfe
  rcases getInstance_cases hgie with ⟨hh, _, _⟩ | ⟨_, _, hbv, _⟩
  · rw [cacheHit_of_mock (show _ = some ctx.clazz from rfl)] at hh
    cases hh
  · obtain ⟨hv, _⟩ := buildValue_proxy (show _ = some ctx.clazz from rfl) rfl hbv
    subst hv
    refine ⟨rfl, ?_, ?_⟩
    · intro mem val hl
      show (match M.members.lookup mem with
        | some w => some w
        | none => ctx.clazz.members.lookup mem) = some val
      rw [hl]
    · intro mem hl
      show (match M.members.lookup mem with
        | some w => some w
        | none => ctx.clazz.members.lookup mem) =
        ctx.clazz.members.lookup mem
      rw [hl]

/-- C7 witness: with `classA` (members `f`, `g`) mocked by `classAMock`
(member `f` only) in proxy mode, the resolved view reads `f` from the mock
and `g` from the original. -/
theorem proxy_mock_member_fallback_witness :
    readMember (Value.proxyView ⟨0, classAMock, []⟩ ⟨1, classA, []⟩) "f" =
      some 20 ∧
    readMember (Value.proxyView ⟨0, classAMock, []⟩ ⟨1, classA, []⟩) "g" =
      some 11 :=
  ⟨(proxy_mock_member_fallback contA keyA classAMock ctxA [] 0
      (Value.proxyView ⟨0, classAMock, []⟩ ⟨1, classA, []⟩)
      ⟨[(keyA, ⟨RegType.singleton, classAMock, some classA, none, true⟩)]⟩
      ⟨[(keyA, ⟨RegType.singleton, classAMock, some classA,
        some (Value.proxyView ⟨0, classAMock, []⟩ ⟨1, classA, []⟩), true⟩)]⟩
      2 rfl rfl rfl).2.1 "f" 20 rfl,
   ((proxy_mock_member_fallback contA keyA classAMock ctxA [] 0
      (Value.proxyView ⟨0, classAMock, []⟩ ⟨1, classA, []⟩)
      ⟨[(keyA, ⟨RegType.singleton, classAMock, some classA, none, true⟩)]⟩
      ⟨[(keyA, ⟨RegType.singleton, classAMock, some classA,
        some (Value.proxyView ⟨0, classAMock, []⟩ ⟨1, classA, []⟩), true⟩)]⟩
      2 rfl rfl rfl).2.2 "g" rfl).trans rfl⟩

/-- C10: while a mock is active on a singleton record, `getInstance` skips
the cached-instance fast path, constructs a fresh instance of the active
(mock) class at the current allocation id, and overwrites the record's cached
instance with the new result; a further call under the mock returns a
distinct instance and overwrites the cache again — the mocked singleton
behaves like a factory. -/
theorem mocked_singleton_resolves_fresh (ctx : InstanceContext)
    (ps₁ : List Nat) (n : Nat) (v₁ : Value) (ctx₁ : InstanceContext)
    (n₁ : Nat) (oc : Clazz)
    (hty : ctx.type = RegType.singleton)
    (hmk : ctx.originalClazz = some oc)
    (h₁ : getInstance ctx ps₁ n = Except.ok (v₁, ctx₁, n₁)) :
    v₁.activeObj = ⟨n, ctx.clazz, ps₁⟩ ∧
    ctx₁.instance_ = some v₁ ∧
    (∀ (ps₂ : List Nat) (m : Nat) (v₂ : Value) (ctx₂ : InstanceContext)
      (n₂ : Nat), n₁ ≤ m →
      getInstance ctx₁ ps₂ m = Except.ok (v₂, ctx₂, n₂) →
      v₂ ≠ v₁ ∧ ctx₂.instance_ = some v₂) := by
  have hhit : cacheHit ctx = none := cacheHit_of_mock hmk
  have hshape₁ := getInstance_shape hhit h₁
  have hpres := getInstance_preserves h₁
  have hctx₁ : ctx₁.instance_ = some v₁ := by
    rcases getInstance_cases h₁ with ⟨hh, _, _⟩ | ⟨_, _, _, ⟨_, rfl⟩ | ⟨hns, _⟩⟩
    · rw [hhit] at hh
      cases hh
    · rfl
    · exact absurd hty hns
  refine ⟨hshape₁.1, hctx₁, ?_⟩
  intro ps₂ m v₂ ctx₂ n₂ hm h₂
  have hmk₁ : ctx₁.originalClazz = some oc := by rw [hpres.2.2.1, hmk]
  have hty₁ : ctx₁.type = RegType.singleton := by rw [hpres.1, hty]
  have hhit₁ : cacheHit ctx₁ = none := cacheHit_of_mock hmk₁
  have hshape₂ := getInstance_shape hhit₁ h₂
  refine ⟨Value.ne_of_freshBelow (Value.freshBelow_mono hshape₁.2.2 hm)
    hshape₂.2.1, ?_⟩
  rcases getInstance_cases h₂ with ⟨hh, _, _⟩ | ⟨_, _, _, ⟨_, rfl⟩ | ⟨hns, _⟩⟩
  · rw [hhit₁] at hh
    cases hh
  · rfl
  · exact absurd hty₁ hns

/-- C10 witness: on the mocked `classA` record (stale cache `valA` present),
two further resolutions construct fresh mock instances at ids 1 and 2; the
second differs from the first. -/
theorem mocked_singleton_resolves_fresh_witness :
    (Value.obj ⟨1, classAMock, []⟩).activeObj = ⟨1, classAMock, []⟩ ∧
    Value.obj ⟨2, classAMock, []⟩ ≠ Value.obj ⟨1, classAMock, []⟩ :=
  ⟨(mocked_singleton_resolves_fresh
      ⟨RegType.singleton, classAMock, some classA, some valA, false⟩ [] 1
      (Value.obj ⟨1, classAMock, []⟩)
      ⟨RegType.singleton, classAMock, some classA,
        some (Value.obj ⟨1, classAMock, []⟩), false⟩
      2 classA rfl rfl rfl).1,
   ((mocked_singleton_resolves_fresh
      ⟨RegType.singleton, classAMock, some classA, some valA, false⟩ [] 1
      (Value.obj ⟨1, classAMock, []⟩)
      ⟨RegType.singleton, classAMock, some classA,
        some (Value.obj ⟨1, classAMock, []⟩), false⟩
      2 classA rfl rfl rfl).2.2 [] 2 (Value.obj ⟨2, classAMock, []⟩)
      ⟨RegType.singleton, classAMock, some classA,
        some (Value.obj ⟨2, classAMock, []⟩), false⟩
      3 (Nat.le_refl 2) rfl).1⟩

/-- C3: resolving a singleton key (caching the resulting instance), then
registering a mock for it, then resolving again never returns the instance
cached before the mock was registered: the record after the first resolution
holds exactly the first instance as its cache, and the second resolution's
result differs from it. -/
theorem mock_swap_invalidates_cache (cont : Container) (key : RegKey)
    (M : Clazz) (p : Bool) (ps₁ ps₂ : List Nat) (n₀ n₁ m n₂ : Nat)
    (v₁ v₂ : Value) (cont₁ cont₂ cont₃ : Container) (ctx₀ : InstanceContext)
    (hfind : findCtx cont.instances key = some ctx₀)
    (hty : ctx₀.type = RegType.singleton)
    (hfresh : ctxFresh ctx₀ n₀ = true)
    (h₁ : cont.resolve key ps₁ n₀ = Except.ok (v₁, cont₁, n₁))
    (hmock : cont₁.registerMock key M p = Except.ok cont₂)
    (hm : n₁ ≤ m)
    (h₂ : cont₂.resolve key ps₂ m = Except.ok (v₂, cont₃, n₂)) :
    v₂ ≠ v₁ ∧
    ∃ ctx₁, findCtx cont₁.instances key = some ctx₁ ∧
      ctx₁.instance_ = some v₁ := by
  obtain ⟨ctxa, ctxb, hfa, hgia, rfl⟩ := resolve_ok h₁
  rw [hfind] at hfa
  injection hfa with hfa
  subst hfa
  have hfresh₁ := getInstance_fresh hfresh hgia
  have hcache₁ : ctxb.instance_ = some v₁ := by
    rcases getInstance_cases hgia with ⟨hh, rfl, _⟩ | ⟨_, _, _, ⟨_, rfl⟩ | ⟨hns, _⟩⟩
    · exact (cacheHit_eq_some hh).2.2
    · rfl
    · exact absurd hty hns
  have hf₁ : findCtx (updateCtx cont.instances key ctxb) key = some ctxb :=
    findCtx_updateCtx_self ctxb hfind
  obtain ⟨ctxc, hfc, hnoc, rfl⟩ := registerMock_ok hmock
  rw [instances_mk, hf₁] at hfc
  injection hfc with hfc
  subst hfc
  obtain ⟨ctxe, ctxf, hfe, hgie, rfl⟩ := resolve_ok h₂
  rw [instances_mk, instances_mk, findCtx_updateCtx_self
    { ctxb with originalClazz := some ctxb.clazz, proxy := p, clazz := M }
    hf₁] at hfe
  injection hfe with hfe
  subst hfe
  have hhit : cacheHit
      { ctxb with originalClazz := some ctxb.clazz, proxy := p, clazz := M } =
      none := cacheHit_of_mock (show _ = some ctxb.clazz from rfl)
  have hshape₂ := getInstance_shape hhit hgie
  exact ⟨Value.ne_of_freshBelow (Value.freshBelow_mono hfresh₁.1 hm)
      hshape₂.2.1,
    ⟨ctxb, by rw [instances_mk]; exact hf₁, hcache₁⟩⟩

/-- C3 witness: resolve `classA` (caching the id-0 instance), mock it with
`classAMock`, resolve again — the id-1 mock instance differs from the cached
original, which the intermediate container still holds. -/
theorem mock_swap_invalidates_cache_witness :
    Value.obj ⟨1, classAMock, []⟩ ≠ valA ∧
    ∃ ctx₁, findCtx contACached.instances keyA = some ctx₁ ∧
      ctx₁.instance_ = some valA :=
  mock_swap_invalidates_cache contA keyA classAMock false [] [] 0 1 1 2
    valA (Value.obj ⟨1, classAMock, []⟩) contACached
    ⟨[(keyA, ⟨RegType.singleton, classAMock, some classA, some valA, false⟩)]⟩
    ⟨[(keyA, ⟨RegType.singleton, classAMock, some classA,
      some (Value.obj ⟨1, classAMock, []⟩), false⟩)]⟩
    ctxA rfl rfl rfl rfl rfl (Nat.le_refl 1) rfl

end DDI
